import Mathlib

/-!
Shallow embedding of `weather_data_pipeline.py` (weather cleaning pipeline).

Modelling conventions:
* A pandas DataFrame row is a `Record`; a DataFrame is a `List Record`
  (pandas row order is preserved by every operation the script uses).
* Nullable cells (`NaN`) are `Option` values; numeric cells are modelled as
  exact rationals `ℚ` (IEEE-754 rounding noise is not modelled).
* `pd.to_datetime(..., errors='coerce')` on the constructed `YYYY-AA-BB`
  candidates: dateutil assigns the three dash-separated numeric groups
  positionally as year-month-day (the first group has four digits, and with
  the default `dayfirst=False` no month/day swap happens), then rejects any
  combination that is not a real calendar date, which `errors='coerce'`
  turns into `NaT`; the following `dropna` removes the row.  `strftime`
  then reproduces the zero-padded candidate text exactly.  The default
  `datetime64[ns]` result type additionally bounds every parsed date by
  `pd.Timestamp.min`/`max`: a calendar date before 1677-09-22 or after
  2262-04-11 raises `OutOfBoundsDatetime`, which `errors='coerce'` also
  turns into `NaT`, so such rows are dropped too.  This is modelled by
  `validCandidate`: split the candidate on `'-'` and check it denotes a
  real calendar date inside the `Timestamp` range (`inTimestampRange`;
  `\d` is modelled as the ASCII digits).
* Python truthiness: the source guards the city-level fill with
  `if city_avg.get(city) and not pd.isna(...)`, so a mean of exactly `0.0`
  (falsy in Python) skips the fill; the model keeps that behaviour.
-/

structure Record where
  city : String
  date : Option String
  weather_condition : Option String
  temperature_celsius : Option ℚ
  humidity_percent : Option ℚ
  wind_speed_kph : Option ℚ
  temperature_fahrenheit : Option ℚ := none
deriving DecidableEq

/-- The three numeric columns imputed by `handle_missing_values`. -/
inductive NumField where
  | temp
  | hum
  | wind
deriving DecidableEq

def getF : NumField → Record → Option ℚ
  | .temp, r => r.temperature_celsius
  | .hum, r => r.humidity_percent
  | .wind, r => r.wind_speed_kph

def setF : NumField → Record → ℚ → Record
  | .temp, r, v => { r with temperature_celsius := some v }
  | .hum, r, v => { r with humidity_percent := some v }
  | .wind, r, v => { r with wind_speed_kph := some v }

/-! ### Date normalization (`clean_dates`, source lines 28-74) -/

/-- Split a character list at every occurrence of `sep`
(the semantics of matching `group sep group sep group`). -/
def splitSep (sep : Char) : List Char → List (List Char)
  | [] => [[]]
  | c :: cs =>
    if c = sep then [] :: splitSep sep cs
    else
      match splitSep sep cs with
      | [] => [[c]]
      | g :: gs => (c :: g) :: gs

def isDigits (l : List Char) : Bool := l.all (·.isDigit)

/-- `^(\d{1,2})sep(\d{1,2})sep(\d{4})$`: the groups of one of the three
date regexes of `standardize_date` (source lines 41-48). -/
def matchSep (sep : Char) (s : List Char) :
    Option (List Char × List Char × List Char) :=
  match splitSep sep s with
  | [a, b, y] =>
    if isDigits a && 1 ≤ a.length && a.length ≤ 2 &&
       isDigits b && 1 ≤ b.length && b.length ≤ 2 &&
       isDigits y && y.length = 4
    then some (a, b, y) else none
  | _ => none

/-- `str.zfill(2)` on a nonempty digit group. -/
def zfill2 (g : List Char) : List Char := if g.length = 1 then '0' :: g else g

/-- `f"{m.group(3)}-{m.group(1).zfill(2)}-{m.group(2).zfill(2)}"`. -/
def fmtCandidate (y a b : List Char) : List Char :=
  y ++ '-' :: (zfill2 a ++ '-' :: zfill2 b)

/-- The inner `standardize_date` function (source lines 36-55): try the
slash, hyphen and dot patterns in order, first match wins, and rebuild the
groups year-first with the first group in the month position. -/
def standardize_date (s : List Char) : Option (List Char) :=
  match matchSep '/' s with
  | some (a, b, y) => some (fmtCandidate y a b)
  | none =>
    match matchSep '-' s with
    | some (a, b, y) => some (fmtCandidate y a b)
    | none =>
      match matchSep '.' s with
      | some (a, b, y) => some (fmtCandidate y a b)
      | none => none

def digitsToNat (l : List Char) : ℕ :=
  l.foldl (fun acc c => 10 * acc + (c.toNat - 48)) 0

def isLeapYear (y : ℕ) : Bool :=
  (y % 4 = 0 && y % 100 ≠ 0) || y % 400 = 0

def daysInMonth (y m : ℕ) : ℕ :=
  if m = 2 then (if isLeapYear y then 29 else 28)
  else if m = 4 ∨ m = 6 ∨ m = 9 ∨ m = 11 then 30
  else 31

def isRealDate (y m d : ℕ) : Bool :=
  1 ≤ y && 1 ≤ m && m ≤ 12 && 1 ≤ d && d ≤ daysInMonth y m

/-- A calendar date packed as `YYYYMMDD`, for comparing dates (month and
day groups are at most two digits, so this ordering is lexicographic). -/
def dateAsNat (y m d : ℕ) : ℕ := y * 10000 + m * 100 + d

/-- The `pd.Timestamp` (`datetime64[ns]`) range at midnight resolution:
`Timestamp.min` is 1677-09-21 00:12:43.145224193, so the first whole
representable day is 1677-09-22, and `Timestamp.max` is
2262-04-11 23:47:16.854775807, so the last is 2262-04-11.  Dates outside
this range raise `OutOfBoundsDatetime`, which `errors='coerce'` turns
into `NaT`. -/
def inTimestampRange (y m d : ℕ) : Bool :=
  16770922 ≤ dateAsNat y m d && dateAsNat y m d ≤ 22620411

/-- `pd.to_datetime(..., errors='coerce')` + `dropna` + `strftime` on a
candidate string (see the header comment): keep it iff it denotes a real
calendar date that is inside the pandas `Timestamp` range. -/
def validCandidate (cand : List Char) : Bool :=
  match splitSep '-' cand with
  | [y, m, d] =>
    isRealDate (digitsToNat y) (digitsToNat m) (digitsToNat d) &&
      inTimestampRange (digitsToNat y) (digitsToNat m) (digitsToNat d)
  | _ => false

/-- The per-record effect of `clean_dates`: missing dates are dropped
(line 33), unparseable dates are dropped (line 61), candidates that are not
real calendar dates are dropped (lines 64-66), and the surviving record's
`date` becomes the candidate string (lines 68-72). -/
def dateKeep (r : Record) : Option Record :=
  match r.date with
  | none => none
  | some s =>
    match standardize_date s.data with
    | none => none
    | some cand =>
      if validCandidate cand then some { r with date := some (String.mk cand) }
      else none

def clean_dates (df : List Record) : List Record := df.filterMap dateKeep

/-! ### Weather-condition normalization (`clean_weather_conditions`,
source lines 76-90) -/

/-- Python `str.lower()` (ASCII letters). -/
def pyLower (s : String) : String := String.mk (s.data.map Char.toLower)

/-- Python `str.capitalize()` (ASCII letters): first character uppercased,
the rest lowercased. -/
def pyCapitalize (s : String) : String :=
  match s.data with
  | [] => ""
  | c :: cs => String.mk (Char.toUpper c :: cs.map Char.toLower)

def normalizeCond (c : Option String) : Option String :=
  let c1 := c.map fun s => pyCapitalize (pyLower s)
  if c1 = some "Null" ∨ c1 = some "NULL" then none else c1

def clean_weather_conditions (df : List Record) : List Record :=
  (df.map fun r =>
      { r with weather_condition := normalizeCond r.weather_condition }).filter
    fun r =>
      !(r.weather_condition == some "Unknown" || r.weather_condition == none)

/-! ### Missing-value imputation (`handle_missing_values`,
source lines 92-122) -/

def meanOpt (l : List ℚ) : Option ℚ :=
  if l.isEmpty then none else some (l.sum / (l.length : ℚ))

/-- `df.groupby('city')[column].mean()` looked up at one city. -/
def cityMean (fld : NumField) (df : List Record) (c : String) : Option ℚ :=
  meanOpt ((df.filter fun r => r.city == c).filterMap (getF fld))

/-- The city-level fill for one record.  The source guard is
`if city_avg.get(city) and not pd.isna(city_avg.get(city))`: an undefined
(NaN) mean is skipped by the `isna` test, and a mean of exactly `0.0` is
skipped because `0.0` is falsy in Python. -/
def cityFillFn (fld : NumField) (df : List Record) (r : Record) : Record :=
  match getF fld r with
  | some _ => r
  | none =>
    match cityMean fld df r.city with
    | none => r
    | some m => if m = 0 then r else setF fld r m

def cityPass (fld : NumField) (df : List Record) : List Record :=
  df.map (cityFillFn fld df)

/-- `df[column] = df[column].fillna(g)`; when `g` is itself NaN
(`meanOpt = none`) the `fillna` is a no-op. -/
def globalFillFn (fld : NumField) (g : Option ℚ) (r : Record) : Record :=
  match getF fld r, g with
  | none, some gv => setF fld r gv
  | _, _ => r

/-- The global-mean fallback: the mean is taken from the column *after* the
city-level fill already ran (source lines 106-107 and 119-120). -/
def globalPass (fld : NumField) (df : List Record) : List Record :=
  df.map (globalFillFn fld (meanOpt (df.filterMap (getF fld))))

def fillField (fld : NumField) (df : List Record) : List Record :=
  globalPass fld (cityPass fld df)

/-- Temperature first (lines 96-107), then humidity, then wind speed
(lines 110-120). -/
def handle_missing_values (df : List Record) : List Record :=
  fillField .wind (fillField .hum (fillField .temp df))

/-! ### Derived field and rounding (source lines 124-134) -/

def add_fahrenheit_column (df : List Record) : List Record :=
  df.map fun r =>
    { r with
      temperature_fahrenheit :=
        r.temperature_celsius.map fun c => c * 9 / 5 + 32 }

/-- Floor of a rational (denominator is positive, so Euclidean division of
the numerator floors). -/
def qfloor (q : ℚ) : ℤ := Int.ediv q.num (q.den : ℤ)

/-- Round-half-to-even to an integer (the rounding of `numpy.round`). -/
def roundHalfEven (q : ℚ) : ℤ :=
  let f := qfloor q
  if q - (f : ℚ) < 1 / 2 then f
  else if (1 : ℚ) / 2 < q - (f : ℚ) then f + 1
  else if Int.emod f 2 = 0 then f else f + 1

/-- `Series.round(2)`. -/
def round2 (q : ℚ) : ℚ := (roundHalfEven (q * 100) : ℚ) / 100

def round_numeric_columns (df : List Record) : List Record :=
  df.map fun r =>
    { r with
      temperature_celsius := r.temperature_celsius.map round2
      temperature_fahrenheit := r.temperature_fahrenheit.map round2
      humidity_percent := r.humidity_percent.map round2
      wind_speed_kph := r.wind_speed_kph.map round2 }

/-! ### Summary report (`generate_city_temperature_report`,
source lines 136-141) -/

/-- Lexicographic comparison of char lists by code point (the order
Python's `str` comparison and hence `groupby`'s key sort use). -/
def charsLe : List Char → List Char → Bool
  | [], _ => true
  | _ :: _, [] => false
  | c :: cs, d :: ds =>
    if c.toNat < d.toNat then true
    else if d.toNat < c.toNat then false
    else charsLe cs ds

def strLe (s t : String) : Bool := charsLe s.data t.data

/-- `groupby('city')` iterates the distinct cities in ascending name order. -/
def sortedCities (df : List Record) : List String :=
  List.insertionSort (fun a b => strLe a b = true) (df.map (·.city)).dedup

/-- `groupby('city')['temperature_celsius'].mean().round(2)` as an ordered
association list (a city whose every temperature is missing gets `none`,
pandas' NaN). -/
def cityMeanPairs (df : List Record) : List (String × Option ℚ) :=
  (sortedCities df).map fun c => (c, (cityMean .temp df c).map round2)

/-- Value order of `sort_values(ascending=False)`: descending, NaN last. -/
def descending (x y : Option ℚ) : Bool :=
  match x, y with
  | _, none => true
  | none, some _ => false
  | some a, some b => decide (b ≤ a)

def repOrd (p q : String × Option ℚ) : Prop := descending p.2 q.2 = true

instance : DecidableRel repOrd := fun _ _ => instDecidableEqBool _ _

theorem descending_total (x y : Option ℚ) :
    descending x y = true ∨ descending y x = true := by
  rcases x with _ | a <;> rcases y with _ | b <;> simp [descending]
  exact le_total b a

theorem descending_trans {x y z : Option ℚ} (h1 : descending x y = true)
    (h2 : descending y z = true) : descending x z = true := by
  rcases x with _ | a <;> rcases y with _ | b <;> rcases z with _ | c <;>
    simp [descending] at *
  exact le_trans h2 h1

instance : IsTotal (String × Option ℚ) repOrd :=
  ⟨fun p q => descending_total p.2 q.2⟩

instance : IsTrans (String × Option ℚ) repOrd :=
  ⟨fun _ _ _ h1 h2 => descending_trans h1 h2⟩

/-- `.mean().round(2).sort_values(ascending=False).head(5)` (the report
text and file writing are I/O, outside the model; ties in `sort_values`
are implementation-defined, modelled here by a stable insertion sort). -/
def generate_city_temperature_report (df : List Record) :
    List (String × Option ℚ) :=
  (List.insertionSort repOrd (cityMeanPairs df)).take 5

/-! ### The full pipeline (`main`, source lines 194-198) -/

def pipeline (df : List Record) : List Record :=
  round_numeric_columns
    (add_fahrenheit_column
      (handle_missing_values
        (clean_weather_conditions
          (clean_dates df))))

/-! ### Auxiliary definitions used by the verification -/

/-- Inverse of `splitSep`: interleave the separator between the groups. -/
def unsplit (sep : Char) : List (List Char) → List Char
  | [] => []
  | [g] => g
  | g :: gs => g ++ sep :: unsplit sep gs

/-- The per-record function computed by one whole `fillField` pass
(city-level fill, then global fill whose mean is taken after the
city-level fill). -/
def fillFieldFn (fld : NumField) (df : List Record) (r : Record) : Record :=
  globalFillFn fld (meanOpt ((cityPass fld df).filterMap (getF fld)))
    (cityFillFn fld df r)

/-- A record transformer that either leaves the record alone or writes
some value into the field `fld` when that field was missing.  Both halves
of a `fillField` pass have this shape. -/
def FillLike (fld : NumField) (f : Record → Record) : Prop :=
  ∀ r, f r = r ∨ ∃ v, getF fld r = none ∧ f r = setF fld r v

/-- A record transformer that keeps `city`, `date`, `weather_condition`
and every already-present numeric value. -/
def Tame (f : Record → Record) : Prop :=
  (∀ r, (f r).city = r.city ∧ (f r).date = r.date ∧
    (f r).weather_condition = r.weather_condition) ∧
  ∀ fld r q, getF fld r = some q → getF fld (f r) = some q

/-- Spec-side reading of one date regex (`DateNormalizer`, spec §4.1):
the date string is two 1-2 digit groups and then a 4-digit year group,
joined by the separator. -/
def DatePattern (sep : Char) (s a b y : List Char) : Prop :=
  s = a ++ sep :: (b ++ sep :: y) ∧
  (∀ c ∈ a, c.isDigit) ∧ 1 ≤ a.length ∧ a.length ≤ 2 ∧
  (∀ c ∈ b, c.isDigit) ∧ 1 ≤ b.length ∧ b.length ≤ 2 ∧
  (∀ c ∈ y, c.isDigit) ∧ y.length = 4

/-- Spec-side reading of the whole date-normalization step: a record
survives exactly when its date string matches one of the three patterns
(slash, hyphen, dot, tried in that order) and the groups, reinterpreted
month-first as zero-padded `YYYY-MM-DD`, form a real calendar date that
lies inside the pandas `Timestamp` range (real calendar dates outside
that range are coerced to `NaT` and dropped, see `inTimestampRange`);
the surviving record carries the canonical string. -/
def SpecDateKept (r rOut : Record) : Prop :=
  ∃ s sep a b y, r.date = some s ∧ sep ∈ ['/', '-', '.'] ∧
    DatePattern sep s.data a b y ∧
    isRealDate (digitsToNat y) (digitsToNat a) (digitsToNat b) = true ∧
    inTimestampRange (digitsToNat y) (digitsToNat a) (digitsToNat b) =
      true ∧
    rOut = { r with date := some (String.mk (fmtCandidate y a b)) }

/-! ### Concrete datasets used as witnesses and counterexamples -/

def mkRec (c : String) (d wc : Option String) (t h w : Option ℚ) : Record :=
  { city := c, date := d, weather_condition := wc, temperature_celsius := t,
    humidity_percent := h, wind_speed_kph := w }

/-- One well-formed raw record (month-first date, so it survives). -/
def exIdem : List Record :=
  [mkRec "A" (some "03/15/2023") (some "SUNNY") (some 10) (some 50) (some 5)]

/-- City A's temperatures average exactly `0.0`; record 2 is missing. -/
def exZero : List Record :=
  [mkRec "A" (some "2023-03-15") (some "Sunny") (some (-5)) (some 50) (some 5),
   mkRec "A" (some "2023-03-15") (some "Sunny") (some 5) (some 50) (some 5),
   mkRec "A" (some "2023-03-15") (some "Sunny") none (some 50) (some 5),
   mkRec "B" (some "2023-03-15") (some "Sunny") (some 4) (some 50) (some 5)]

/-- A: `[10, missing]`, B: `[20]`, C: `[missing]`; the originally-present
mean is `15`, but the mean the code uses after the city fill is `40/3`. -/
def exGlobal : List Record :=
  [mkRec "A" (some "2023-03-15") (some "Sunny") (some 10) (some 50) (some 5),
   mkRec "A" (some "2023-03-15") (some "Sunny") none (some 50) (some 5),
   mkRec "B" (some "2023-03-15") (some "Sunny") (some 20) (some 50) (some 5),
   mkRec "C" (some "2023-03-15") (some "Sunny") none (some 50) (some 5)]

def exDate15 : Record :=
  mkRec "A" (some "15/03/2023") (some "Sunny") (some 10) (some 50) (some 5)

def exDate31 : Record :=
  mkRec "A" (some "31/02/2023") (some "Sunny") (some 10) (some 50) (some 5)

def exDateOk : Record :=
  mkRec "A" (some "03/15/2023") (some "Sunny") (some 10) (some 50) (some 5)

/-- A real calendar date (1500-01-01 month-first) outside the pandas
`Timestamp` range. -/
def exDate1500 : Record :=
  mkRec "A" (some "01/01/1500") (some "Sunny") (some 10) (some 50) (some 5)

/-- A record whose weather condition is the empty string. -/
def exEmptyCond : Record :=
  mkRec "A" (some "2023-03-15") (some "") (some 10) (some 50) (some 5)

def exCap : Record :=
  mkRec "A" (some "2023-03-15") (some "sUNNY") (some 10) (some 50) (some 5)

/-- What `clean_weather_conditions` makes of `exCap`. -/
def exCapOut : Record :=
  mkRec "A" (some "2023-03-15") (some "Sunny") (some 10) (some 50) (some 5)

/-- Every numeric field is missing on every record (degenerate fields). -/
def exDeg : List Record :=
  [mkRec "A" (some "2023-03-15") (some "Sunny") none none none,
   mkRec "B" (some "2023-03-15") (some "Sunny") none none none]

def rF0 : Record :=
  mkRec "A" (some "2023-03-15") (some "Sunny") (some 0) (some 50) (some 5)

def rF100 : Record :=
  mkRec "A" (some "2023-03-15") (some "Sunny") (some 100) (some 50) (some 5)

def rFN : Record :=
  mkRec "A" (some "2023-03-15") (some "Sunny") none (some 50) (some 5)

def exFahr : List Record := [rF0, rF100, rFN]

/-- Six cities with the means of the spec's top-5 example. -/
def exTop : List Record :=
  [mkRec "A" (some "2023-03-15") (some "Sunny") (some 30) (some 50) (some 5),
   mkRec "B" (some "2023-03-15") (some "Sunny") (some 25) (some 50) (some 5),
   mkRec "C" (some "2023-03-15") (some "Sunny") (some 28) (some 50) (some 5),
   mkRec "D" (some "2023-03-15") (some "Sunny") (some 10) (some 50) (some 5),
   mkRec "E" (some "2023-03-15") (some "Sunny") (some 5) (some 50) (some 5),
   mkRec "F" (some "2023-03-15") (some "Sunny") (some 40) (some 50) (some 5)]

/-- Mixed present/missing values, for the frame-condition witness. -/
def exFrame0 : Record :=
  mkRec "A" (some "2023-03-15") (some "Sunny") (some 7) none (some 5)

def exFrame1 : Record :=
  mkRec "A" (some "2023-03-16") (some "Rainy") none (some 40) (some 6)

def exFrame : List Record := [exFrame0, exFrame1]

/-- What `handle_missing_values` makes of `exFrame0`: the missing humidity
is filled with city A's humidity mean `40`. -/
def exFrameOut0 : Record :=
  mkRec "A" (some "2023-03-15") (some "Sunny") (some 7) (some 40) (some 5)

/-- Record 3 of `exGlobal` (city C) after the city-level pass: still
missing, since city C has no present temperature. -/
def rGlobal3 : Record :=
  mkRec "C" (some "2023-03-15") (some "Sunny") none (some 50) (some 5)

/-! ## Lemmas and claim theorems

`Rat.add`, `Rat.sub`, `Rat.mul` and `Rat.inv` are `@[irreducible]` in the
library, which blocks `decide` on concrete rational computations; restore
the default reducibility for this verification file. -/

attribute [local semireducible] Rat.mul Rat.inv Rat.add Rat.sub

/-! ## Record-level lemmas about the imputation helpers -/

theorem city_setF (fld : NumField) (r : Record) (v : ℚ) :
    (setF fld r v).city = r.city := by
  cases fld <;> rfl

theorem date_setF (fld : NumField) (r : Record) (v : ℚ) :
    (setF fld r v).date = r.date := by
  cases fld <;> rfl

theorem cond_setF (fld : NumField) (r : Record) (v : ℚ) :
    (setF fld r v).weather_condition = r.weather_condition := by
  cases fld <;> rfl

theorem getF_setF_same (fld : NumField) (r : Record) (v : ℚ) :
    getF fld (setF fld r v) = some v := by
  cases fld <;> rfl

theorem getF_setF_other {fld fld' : NumField} (h : fld' ≠ fld)
    (r : Record) (v : ℚ) : getF fld' (setF fld r v) = getF fld' r := by
  cases fld <;> cases fld' <;> first
    | rfl
    | exact absurd rfl h

theorem fillLike_cityFillFn (fld : NumField) (df : List Record) :
    FillLike fld (cityFillFn fld df) := by
  intro r
  unfold cityFillFn
  cases hg : getF fld r with
  | some q => exact Or.inl rfl
  | none =>
    cases hm : cityMean fld df r.city with
    | none => exact Or.inl rfl
    | some m =>
      by_cases hz : m = 0
      · simp [hz]
      · exact Or.inr ⟨m, rfl, by simp [hz]⟩

theorem fillLike_globalFillFn (fld : NumField) (g : Option ℚ) :
    FillLike fld (globalFillFn fld g) := by
  intro r
  unfold globalFillFn
  cases hg : getF fld r with
  | some q => exact Or.inl rfl
  | none =>
    cases g with
    | none => exact Or.inl rfl
    | some gv => exact Or.inr ⟨gv, rfl, rfl⟩

theorem FillLike.city {fld f} (h : FillLike fld f) (r : Record) :
    (f r).city = r.city := by
  rcases h r with he | ⟨v, _, he⟩ <;> rw [he]
  exact city_setF fld r v

theorem FillLike.date {fld f} (h : FillLike fld f) (r : Record) :
    (f r).date = r.date := by
  rcases h r with he | ⟨v, _, he⟩ <;> rw [he]
  exact date_setF fld r v

theorem FillLike.cond {fld f} (h : FillLike fld f) (r : Record) :
    (f r).weather_condition = r.weather_condition := by
  rcases h r with he | ⟨v, _, he⟩ <;> rw [he]
  exact cond_setF fld r v

theorem FillLike.get_other {fld fld' f} (h : FillLike fld f)
    (hne : fld' ≠ fld) (r : Record) : getF fld' (f r) = getF fld' r := by
  rcases h r with he | ⟨v, _, he⟩ <;> rw [he]
  exact getF_setF_other hne r v

theorem FillLike.get_some {fld f} (h : FillLike fld f) {r : Record} {q : ℚ}
    (hq : getF fld r = some q) : getF fld (f r) = some q := by
  rcases h r with he | ⟨v, hn, he⟩
  · rw [he]; exact hq
  · rw [hn] at hq; exact absurd hq (by simp)

theorem FillLike.tame {fld f} (h : FillLike fld f) : Tame f := by
  constructor
  · exact fun r => ⟨h.city r, h.date r, h.cond r⟩
  · intro fld' r q hq
    by_cases he : fld' = fld
    · subst he; exact h.get_some hq
    · rw [h.get_other he r]; exact hq

theorem Tame.comp {f g : Record → Record} (hf : Tame f) (hg : Tame g) :
    Tame fun r => g (f r) := by
  refine ⟨fun r => ?_, fun fld r q hq => hg.2 fld (f r) q (hf.2 fld r q hq)⟩
  obtain ⟨h1, h2, h3⟩ := hg.1 (f r)
  obtain ⟨h4, h5, h6⟩ := hf.1 r
  exact ⟨h1.trans h4, h2.trans h5, h3.trans h6⟩

theorem fillLike_fillFieldFn (fld : NumField) (df : List Record) :
    FillLike fld (fillFieldFn fld df) := by
  intro r
  unfold fillFieldFn
  rcases fillLike_cityFillFn fld df r with he | ⟨v, hn, he⟩
  · rw [he]
    exact fillLike_globalFillFn fld _ r
  · rw [he]
    rcases fillLike_globalFillFn fld
        (meanOpt ((cityPass fld df).filterMap (getF fld))) (setF fld r v) with
      he2 | ⟨w, hn2, _⟩
    · rw [he2]; exact Or.inr ⟨v, hn, rfl⟩
    · rw [getF_setF_same] at hn2; exact absurd hn2 (by simp)

theorem tame_fillFieldFn (fld : NumField) (df : List Record) :
    Tame (fillFieldFn fld df) :=
  (fillLike_fillFieldFn fld df).tame

theorem fillField_eq_map (fld : NumField) (df : List Record) :
    fillField fld df = df.map (fillFieldFn fld df) := by
  unfold fillField globalPass cityPass fillFieldFn
  rw [List.map_map]
  rfl

/-! ## Lemmas about splitting and the date patterns -/

theorem splitSep_ne_nil (sep : Char) (l : List Char) : splitSep sep l ≠ [] := by
  induction l with
  | nil => simp [splitSep]
  | cons c cs ih =>
    unfold splitSep
    by_cases h : c = sep
    · simp [h]
    · simp only [if_neg h]
      cases hs : splitSep sep cs with
      | nil => simp
      | cons g gs => simp

theorem splitSep_single {sep : Char} {l : List Char} (h : sep ∉ l) :
    splitSep sep l = [l] := by
  induction l with
  | nil => rfl
  | cons c cs ih =>
    have hc : ¬ c = sep := fun e => h (e ▸ List.mem_cons_self c cs)
    have hcs : sep ∉ cs := fun e => h (List.mem_cons_of_mem c e)
    unfold splitSep
    rw [if_neg hc, ih hcs]

theorem splitSep_append {sep : Char} {a rest : List Char} (h : sep ∉ a) :
    splitSep sep (a ++ sep :: rest) = a :: splitSep sep rest := by
  induction a with
  | nil => simp [splitSep]
  | cons c cs ih =>
    have hc : ¬ c = sep := fun e => h (e ▸ List.mem_cons_self c cs)
    have hcs : sep ∉ cs := fun e => h (List.mem_cons_of_mem c e)
    show splitSep sep (c :: (cs ++ sep :: rest)) = (c :: cs) :: splitSep sep rest
    rw [splitSep, if_neg hc, ih hcs]

theorem splitSep_unsplit (sep : Char) (l : List Char) :
    unsplit sep (splitSep sep l) = l := by
  induction l with
  | nil => rfl
  | cons c cs ih =>
    unfold splitSep
    by_cases h : c = sep
    · rw [if_pos h]
      obtain ⟨g, gs, hg⟩ := List.exists_cons_of_ne_nil (splitSep_ne_nil sep cs)
      rw [hg] at ih ⊢
      show unsplit sep ([] :: g :: gs) = c :: cs
      unfold unsplit
      rw [List.nil_append, ih, h]
    · rw [if_neg h]
      obtain ⟨g, gs, hg⟩ := List.exists_cons_of_ne_nil (splitSep_ne_nil sep cs)
      rw [hg] at ih ⊢
      cases gs with
      | nil =>
        show unsplit sep [c :: g] = c :: cs
        unfold unsplit at ih ⊢
        rw [ih]
      | cons g2 gs2 =>
        show unsplit sep ((c :: g) :: g2 :: gs2) = c :: cs
        unfold unsplit at ih ⊢
        rw [List.cons_append, ih]

theorem splitSep_not_mem (sep : Char) (l : List Char) :
    ∀ g ∈ splitSep sep l, sep ∉ g := by
  induction l with
  | nil =>
    intro g hg
    simp [splitSep] at hg
    simp [hg]
  | cons c cs ih =>
    intro g hg
    unfold splitSep at hg
    by_cases h : c = sep
    · rw [if_pos h] at hg
      rcases List.mem_cons.mp hg with he | he
      · simp [he]
      · exact ih g he
    · rw [if_neg h] at hg
      cases hs : splitSep sep cs with
      | nil => exact absurd hs (splitSep_ne_nil sep cs)
      | cons g0 gs0 =>
        rw [hs] at hg
        rcases List.mem_cons.mp hg with he | he
        · subst he
          intro hmem
          rcases List.mem_cons.mp hmem with he2 | he2
          · exact h he2.symm
          · exact ih g0 (hs ▸ List.mem_cons_self g0 gs0) he2
        · exact ih g (hs ▸ List.mem_cons_of_mem g0 he)

theorem splitSep_eq_three {sep : Char} {s a b y : List Char}
    (h : splitSep sep s = [a, b, y]) :
    s = a ++ sep :: (b ++ sep :: y) ∧ sep ∉ a ∧ sep ∉ b ∧ sep ∉ y := by
  have h1 := splitSep_unsplit sep s
  rw [h] at h1
  have h2 : unsplit sep [a, b, y] = a ++ sep :: (b ++ sep :: y) := by
    simp [unsplit]
  refine ⟨by rw [← h1, h2], ?_, ?_, ?_⟩
  · exact splitSep_not_mem sep s a (h ▸ by simp)
  · exact splitSep_not_mem sep s b (h ▸ by simp)
  · exact splitSep_not_mem sep s y (h ▸ by simp)

theorem not_mem_of_digits {sep : Char} {g : List Char}
    (hsep : sep.isDigit = false) (hg : ∀ c ∈ g, c.isDigit) : sep ∉ g :=
  fun h => by rw [hg sep h] at hsep; exact Bool.noConfusion hsep

theorem matchSep_eq_some_iff {sep : Char} {s a b y : List Char}
    (hsep : sep.isDigit = false) :
    matchSep sep s = some (a, b, y) ↔ DatePattern sep s a b y := by
  constructor
  · intro h
    unfold matchSep at h
    split at h
    next a0 b0 y0 heq =>
      split at h
      next hcond =>
        injection h with h2
        have ha0 : a0 = a := congrArg Prod.fst h2
        have hb0 : b0 = b := congrArg (fun p => p.2.1) h2
        have hy0 : y0 = y := congrArg (fun p => p.2.2) h2
        subst ha0; subst hb0; subst hy0
        simp only [Bool.and_eq_true, decide_eq_true_eq, isDigits,
          List.all_eq_true] at hcond
        obtain ⟨⟨⟨⟨⟨⟨⟨hda, hl1⟩, hl2⟩, hdb⟩, hl3⟩, hl4⟩, hdy⟩, hl5⟩ := hcond
        obtain ⟨hdec, _, _, _⟩ := splitSep_eq_three heq
        exact ⟨hdec, hda, hl1, hl2, hdb, hl3, hl4, hdy, hl5⟩
      next => exact absurd h (by simp)
    next => exact absurd h (by simp)
  · rintro ⟨hs, ha, hla1, hla2, hb, hlb1, hlb2, hy, hly⟩
    have hna := not_mem_of_digits hsep ha
    have hnb := not_mem_of_digits hsep hb
    have hny := not_mem_of_digits hsep hy
    have hsplit : splitSep sep s = [a, b, y] := by
      rw [hs, splitSep_append hna, splitSep_append hnb, splitSep_single hny]
    have hcond : (isDigits a && 1 ≤ a.length && a.length ≤ 2 &&
        isDigits b && 1 ≤ b.length && b.length ≤ 2 &&
        isDigits y && y.length = 4) = true := by
      simp only [Bool.and_eq_true, decide_eq_true_eq, isDigits,
        List.all_eq_true]
      exact ⟨⟨⟨⟨⟨⟨⟨ha, hla1⟩, hla2⟩, hb⟩, hlb1⟩, hlb2⟩, hy⟩, hly⟩
    unfold matchSep
    rw [hsplit]
    show (if (isDigits a && 1 ≤ a.length && a.length ≤ 2 &&
        isDigits b && 1 ≤ b.length && b.length ≤ 2 &&
        isDigits y && y.length = 4) = true
      then some (a, b, y) else none) = some (a, b, y)
    rw [if_pos hcond]

theorem splitSep_of_pattern {sep : Char} {s a b y : List Char}
    (hsep : sep.isDigit = false) (hp : DatePattern sep s a b y) :
    splitSep sep s = [a, b, y] := by
  obtain ⟨hs, ha, _, _, hb, _, _, hy, _⟩ := hp
  have hna := not_mem_of_digits hsep ha
  have hnb := not_mem_of_digits hsep hb
  have hny := not_mem_of_digits hsep hy
  rw [hs, splitSep_append hna, splitSep_append hnb, splitSep_single hny]

theorem other_sep_not_mem {sep sep' : Char} {s a b y : List Char}
    (hp : DatePattern sep s a b y) (h1 : sep'.isDigit = false)
    (h2 : sep' ≠ sep) : sep' ∉ s := by
  obtain ⟨hs, ha, _, _, hb, _, _, hy, _⟩ := hp
  rw [hs]
  intro hmem
  simp only [List.mem_append, List.mem_cons] at hmem
  rcases hmem with h | h | h | h | h
  · rw [ha sep' h] at h1; exact Bool.noConfusion h1
  · exact h2 h
  · rw [hb sep' h] at h1; exact Bool.noConfusion h1
  · exact h2 h
  · rw [hy sep' h] at h1; exact Bool.noConfusion h1

theorem matchSep_none_of_not_mem {sep : Char} {s : List Char} (h : sep ∉ s) :
    matchSep sep s = none := by
  unfold matchSep
  rw [splitSep_single h]

theorem standardize_eq_some_iff {s cand : List Char} :
    standardize_date s = some cand ↔
      ∃ sep a b y, sep ∈ ['/', '-', '.'] ∧ DatePattern sep s a b y ∧
        cand = fmtCandidate y a b := by
  constructor
  · intro h
    unfold standardize_date at h
    cases h1 : matchSep '/' s with
    | some t =>
      obtain ⟨a, b, y⟩ := t
      simp only [h1] at h
      exact ⟨'/', a, b, y, by simp,
        (matchSep_eq_some_iff (by decide)).mp h1, (Option.some.inj h).symm⟩
    | none =>
      simp only [h1] at h
      cases h2 : matchSep '-' s with
      | some t =>
        obtain ⟨a, b, y⟩ := t
        simp only [h2] at h
        exact ⟨'-', a, b, y, by simp,
          (matchSep_eq_some_iff (by decide)).mp h2, (Option.some.inj h).symm⟩
      | none =>
        simp only [h2] at h
        cases h3 : matchSep '.' s with
        | some t =>
          obtain ⟨a, b, y⟩ := t
          simp only [h3] at h
          exact ⟨'.', a, b, y, by simp,
            (matchSep_eq_some_iff (by decide)).mp h3,
            (Option.some.inj h).symm⟩
        | none =>
          simp only [h3] at h
          exact Option.noConfusion h
  · rintro ⟨sep, a, b, y, hsep, hp, hcand⟩
    subst hcand
    simp only [List.mem_cons, List.not_mem_nil, or_false] at hsep
    unfold standardize_date
    rcases hsep with h | h | h <;> subst h
    · rw [(matchSep_eq_some_iff (by decide)).mpr hp]
    · rw [matchSep_none_of_not_mem
        (@other_sep_not_mem '-' '/' s a b y hp (by decide) (by decide)),
        (matchSep_eq_some_iff (by decide)).mpr hp]
    · rw [matchSep_none_of_not_mem
          (@other_sep_not_mem '.' '/' s a b y hp (by decide) (by decide)),
        matchSep_none_of_not_mem
          (@other_sep_not_mem '.' '-' s a b y hp (by decide) (by decide)),
        (matchSep_eq_some_iff (by decide)).mpr hp]

theorem zfill2_digits {g : List Char} (hg : ∀ c ∈ g, c.isDigit) :
    ∀ c ∈ zfill2 g, c.isDigit := by
  unfold zfill2
  by_cases h : g.length = 1
  · rw [if_pos h]
    intro c hc
    rcases List.mem_cons.mp hc with he | he
    · rw [he]; decide
    · exact hg c he
  · rw [if_neg h]; exact hg

theorem zfill2_length {g : List Char} (h1 : 1 ≤ g.length)
    (h2 : g.length ≤ 2) : (zfill2 g).length = 2 := by
  unfold zfill2
  by_cases h : g.length = 1
  · rw [if_pos h]; simp [h]
  · rw [if_neg h]; omega

theorem digitsToNat_zfill2 (g : List Char) :
    digitsToNat (zfill2 g) = digitsToNat g := by
  unfold zfill2
  by_cases h : g.length = 1
  · rw [if_pos h]
    show List.foldl _ (10 * 0 + ('0'.toNat - 48)) g = List.foldl _ 0 g
    have h0 : 10 * 0 + ('0'.toNat - 48) = 0 := by decide
    rw [h0]
  · rw [if_neg h]

theorem splitSep_fmtCandidate {y a b : List Char}
    (hy : ∀ c ∈ y, c.isDigit) (ha : ∀ c ∈ a, c.isDigit)
    (hb : ∀ c ∈ b, c.isDigit) :
    splitSep '-' (fmtCandidate y a b) = [y, zfill2 a, zfill2 b] := by
  have hny : ('-' : Char) ∉ y := not_mem_of_digits (by decide) hy
  have hna : ('-' : Char) ∉ zfill2 a :=
    not_mem_of_digits (by decide) (zfill2_digits ha)
  have hnb : ('-' : Char) ∉ zfill2 b :=
    not_mem_of_digits (by decide) (zfill2_digits hb)
  unfold fmtCandidate
  rw [splitSep_append hny, splitSep_append hna, splitSep_single hnb]

theorem validCandidate_fmt {y a b : List Char}
    (hy : ∀ c ∈ y, c.isDigit) (ha : ∀ c ∈ a, c.isDigit)
    (hb : ∀ c ∈ b, c.isDigit) :
    validCandidate (fmtCandidate y a b) =
      (isRealDate (digitsToNat y) (digitsToNat a) (digitsToNat b) &&
        inTimestampRange (digitsToNat y) (digitsToNat a)
          (digitsToNat b)) := by
  unfold validCandidate
  rw [splitSep_fmtCandidate hy ha hb]
  show (isRealDate (digitsToNat y) (digitsToNat (zfill2 a))
      (digitsToNat (zfill2 b)) &&
    inTimestampRange (digitsToNat y) (digitsToNat (zfill2 a))
      (digitsToNat (zfill2 b))) = _
  rw [digitsToNat_zfill2, digitsToNat_zfill2]

theorem dateKeep_eq_some_iff (r rOut : Record) :
    dateKeep r = some rOut ↔ SpecDateKept r rOut := by
  constructor
  · intro h
    unfold dateKeep at h
    cases hd : r.date with
    | none =>
      simp only [hd] at h
      exact Option.noConfusion h
    | some s =>
      simp only [hd] at h
      cases hsd : standardize_date s.data with
      | none =>
        simp only [hsd] at h
        exact Option.noConfusion h
      | some cand =>
        simp only [hsd] at h
        by_cases hv : validCandidate cand = true
        · rw [if_pos hv] at h
          obtain ⟨sep, a, b, y, hsep, hp, hcand⟩ :=
            standardize_eq_some_iff.mp hsd
          subst hcand
          rw [validCandidate_fmt hp.2.2.2.2.2.2.2.1 hp.2.1
            hp.2.2.2.2.1] at hv
          obtain ⟨hreal, hrange⟩ := Bool.and_eq_true_iff.mp hv
          exact ⟨s, sep, a, b, y, hd, hsep, hp, hreal, hrange,
            (Option.some.injEq _ _ ▸ h).symm⟩
        · rw [if_neg hv] at h
          exact absurd h (by simp)
  · rintro ⟨s, sep, a, b, y, hd, hsep, hp, hreal, hrange, hout⟩
    unfold dateKeep
    simp only [hd]
    have hsd : standardize_date s.data = some (fmtCandidate y a b) :=
      standardize_eq_some_iff.mpr ⟨sep, a, b, y, hsep, hp, rfl⟩
    simp only [hsd]
    have hv : validCandidate (fmtCandidate y a b) = true := by
      rw [validCandidate_fmt hp.2.2.2.2.2.2.2.1 hp.2.1 hp.2.2.2.2.1]
      exact Bool.and_eq_true_iff.mpr ⟨hreal, hrange⟩
    rw [if_pos hv, hout]

/-! ## C5 and C4: date normalization -/

/-- C5 counterexample: `"01/01/1500"` matches the slash pattern and its
month-first reinterpretation `1500-01-01` *is* a real calendar date, yet
the record is dropped: `pd.to_datetime(..., errors='coerce')` coerces
dates outside the `datetime64[ns]` `Timestamp` range to `NaT`, so
`clean_dates` does not keep exactly the real calendar dates. -/
theorem C5_out_of_range_counterexample :
    matchSep '/' "01/01/1500".data =
      some ("01".data, "01".data, "1500".data) ∧
    isRealDate (digitsToNat "1500".data) (digitsToNat "01".data)
      (digitsToNat "01".data) = true ∧
    clean_dates [exDate1500] = [] := by
  refine ⟨by decide, by decide, by decide⟩

/-- C5 amended: `clean_dates` keeps exactly those Records whose date
string matches one of the three patterns (slash, hyphen or dot separated,
two 1-2 digit groups followed by a 4-digit year) and whose groups,
reinterpreted month-first as zero-padded `YYYY-MM-DD`, form a real
calendar date *inside the pandas `Timestamp` range* (1677-09-22 through
2262-04-11); all other Records — including real calendar dates outside
that range — are dropped, and every surviving Record's date is the
canonical `YYYY-MM-DD` string (`SpecDateKept` spells this out). -/
theorem C5_clean_dates_range_exact :
    (∀ df : List Record, clean_dates df = df.filterMap dateKeep) ∧
    ∀ r rOut : Record, dateKeep r = some rOut ↔ SpecDateKept r rOut :=
  ⟨fun _ => rfl, dateKeep_eq_some_iff⟩

/-- C4 counterexample: `"15/03/2023"` is *not* mapped to `"2023-03-15"`;
the record is dropped, because the month-first reinterpretation
`"2023-15-03"` is not a real calendar date. -/
theorem C4_month_first_counterexample :
    clean_dates [exDate15] = [] ∧
    clean_dates [exDate15] ≠ [{ exDate15 with date := some "2023-03-15" }] := by
  constructor
  · decide
  · decide

/-- C4 amended: date normalization drops a Record whose date string is
`"15/03/2023"` (its month-first reinterpretation `2023-15-03` has month 15)
and drops a Record whose date string is `"31/02/2023"` (invalid calendar
date). -/
theorem C4_amended_dates :
    clean_dates [exDate15] = [] ∧ clean_dates [exDate31] = [] := by
  constructor
  · decide
  · decide

/-! ## C1: the pipeline applied to its own output -/

theorem clean_dates_canonical {df : List Record} {rOut : Record}
    (h : rOut ∈ clean_dates df) :
    ∃ y a b : List Char, (∀ c ∈ y, c.isDigit) ∧ y.length = 4 ∧
      (∀ c ∈ a, c.isDigit) ∧ (∀ c ∈ b, c.isDigit) ∧
      rOut.date = some (String.mk (fmtCandidate y a b)) := by
  obtain ⟨r, _, hk⟩ := List.mem_filterMap.mp h
  obtain ⟨s, sep, a, b, y, hd, hsep, hp, hreal, hrange, hout⟩ :=
    (dateKeep_eq_some_iff r rOut).mp hk
  subst hout
  exact ⟨y, a, b, hp.2.2.2.2.2.2.2.1, hp.2.2.2.2.2.2.2.2, hp.2.1,
    hp.2.2.2.2.1, rfl⟩

theorem standardize_canonical_none {y a b : List Char}
    (hy : ∀ c ∈ y, c.isDigit) (hly : y.length = 4)
    (ha : ∀ c ∈ a, c.isDigit) (hb : ∀ c ∈ b, c.isDigit) :
    standardize_date (fmtCandidate y a b) = none := by
  have hchars : ∀ c ∈ fmtCandidate y a b, c.isDigit ∨ c = '-' := by
    intro c hc
    unfold fmtCandidate at hc
    simp only [List.mem_append, List.mem_cons] at hc
    rcases hc with h | h | h | h | h
    · exact Or.inl (hy c h)
    · exact Or.inr h
    · exact Or.inl (zfill2_digits ha c h)
    · exact Or.inr h
    · exact Or.inl (zfill2_digits hb c h)
  have h47 : ('/' : Char) ∉ fmtCandidate y a b := by
    intro hm
    rcases hchars _ hm with h | h
    · exact absurd h (by decide)
    · exact absurd h (by decide)
  have hdot : ('.' : Char) ∉ fmtCandidate y a b := by
    intro hm
    rcases hchars _ hm with h | h
    · exact absurd h (by decide)
    · exact absurd h (by decide)
  have hm2 : matchSep '-' (fmtCandidate y a b) = none := by
    unfold matchSep
    rw [splitSep_fmtCandidate hy ha hb]
    have hfalse : (isDigits y && 1 ≤ y.length && y.length ≤ 2 &&
        isDigits (zfill2 a) && 1 ≤ (zfill2 a).length &&
        (zfill2 a).length ≤ 2 && isDigits (zfill2 b) &&
        (zfill2 b).length = 4) = false := by
      have h2 : decide (y.length ≤ 2) = false := by rw [hly]; decide
      simp [h2]
    simp [hfalse]
  unfold standardize_date
  rw [matchSep_none_of_not_mem h47, hm2, matchSep_none_of_not_mem hdot]

theorem dateKeep_canonical_none {r : Record} {y a b : List Char}
    (hy : ∀ c ∈ y, c.isDigit) (hly : y.length = 4)
    (ha : ∀ c ∈ a, c.isDigit) (hb : ∀ c ∈ b, c.isDigit)
    (hd : r.date = some (String.mk (fmtCandidate y a b))) :
    dateKeep r = none := by
  unfold dateKeep
  have hdata : (String.mk (fmtCandidate y a b)).data = fmtCandidate y a b :=
    rfl
  simp only [hd, hdata, standardize_canonical_none hy hly ha hb]

theorem mem_fillField_date {fld : NumField} {df : List Record} {rOut : Record}
    (h : rOut ∈ fillField fld df) : ∃ r ∈ df, rOut.date = r.date := by
  rw [fillField_eq_map] at h
  obtain ⟨r, hr, he⟩ := List.mem_map.mp h
  exact ⟨r, hr, by rw [← he]; exact (fillLike_fillFieldFn fld df).date r⟩

theorem mem_hmv_date {df : List Record} {rOut : Record}
    (h : rOut ∈ handle_missing_values df) : ∃ r ∈ df, rOut.date = r.date := by
  unfold handle_missing_values at h
  obtain ⟨r2, h2, he2⟩ := mem_fillField_date h
  obtain ⟨r1, h1, he1⟩ := mem_fillField_date h2
  obtain ⟨r0, h0, he0⟩ := mem_fillField_date h1
  exact ⟨r0, h0, by rw [he2, he1, he0]⟩

theorem mem_cwc_date {df : List Record} {rOut : Record}
    (h : rOut ∈ clean_weather_conditions df) : ∃ r ∈ df, rOut.date = r.date := by
  unfold clean_weather_conditions at h
  obtain ⟨hmem, _⟩ := List.mem_filter.mp h
  obtain ⟨r, hr, he⟩ := List.mem_map.mp hmem
  exact ⟨r, hr, by rw [← he]⟩

theorem mem_addF_date {df : List Record} {rOut : Record}
    (h : rOut ∈ add_fahrenheit_column df) : ∃ r ∈ df, rOut.date = r.date := by
  unfold add_fahrenheit_column at h
  obtain ⟨r, hr, he⟩ := List.mem_map.mp h
  exact ⟨r, hr, by rw [← he]⟩

theorem mem_round_date {df : List Record} {rOut : Record}
    (h : rOut ∈ round_numeric_columns df) : ∃ r ∈ df, rOut.date = r.date := by
  unfold round_numeric_columns at h
  obtain ⟨r, hr, he⟩ := List.mem_map.mp h
  exact ⟨r, hr, by rw [← he]⟩

theorem pipeline_canonical {df : List Record} {rOut : Record}
    (h : rOut ∈ pipeline df) :
    ∃ y a b : List Char, (∀ c ∈ y, c.isDigit) ∧ y.length = 4 ∧
      (∀ c ∈ a, c.isDigit) ∧ (∀ c ∈ b, c.isDigit) ∧
      rOut.date = some (String.mk (fmtCandidate y a b)) := by
  unfold pipeline at h
  obtain ⟨r4, h4, he4⟩ := mem_round_date h
  obtain ⟨r3, h3, he3⟩ := mem_addF_date h4
  obtain ⟨r2, h2, he2⟩ := mem_hmv_date h3
  obtain ⟨r1, h1, he1⟩ := mem_cwc_date h2
  obtain ⟨y, a, b, hy, hly, ha, hb, hd⟩ := clean_dates_canonical h1
  exact ⟨y, a, b, hy, hly, ha, hb, by rw [he4, he3, he2, he1, hd]⟩

/-- C1 amended: running the pipeline a second time on its own cleaned
output always produces the *empty* dataset: every cleaned Record carries a
canonical `YYYY-MM-DD` date, whose 4-digit leading year matches none of
the three date patterns, so `clean_dates` drops every Record.  The second
run is therefore a no-op only when the first run's output is already
empty. -/
theorem C1_pipeline_twice_empty (df : List Record) :
    pipeline (pipeline df) = [] := by
  have hcd : clean_dates (pipeline df) = [] := by
    apply List.filterMap_eq_nil_iff.mpr
    intro r hr
    obtain ⟨y, a, b, hy, hly, ha, hb, hd⟩ := pipeline_canonical hr
    exact dateKeep_canonical_none hy hly ha hb hd
  show round_numeric_columns (add_fahrenheit_column (handle_missing_values
      (clean_weather_conditions (clean_dates (pipeline df))))) = []
  rw [hcd]
  rfl

/-- C1 counterexample: one well-formed record survives the first run, but
the second run empties the dataset, so the pipeline is not idempotent. -/
theorem C1_not_idempotent :
    pipeline (pipeline exIdem) = [] ∧ pipeline exIdem ≠ [] := by
  constructor
  · decide
  · decide


/-! ## C2: the zero-mean truthiness bug -/

/-- C2 (code bug): city A's temperatures are `[-5, 5, missing]`, so its
partition mean is defined and equals `0.0`; but because `0.0` is falsy the
guard `if city_avg.get(city) and not pd.isna(...)` skips the city-level
substitution, and the missing value instead receives the global mean
`4/3` computed over `[-5, 5, 4]`. -/
theorem C2_zero_mean_eval :
    cityMean .temp exZero "A" = some 0 ∧
    (handle_missing_values exZero).map (·.temperature_celsius) =
      [some (-5), some 5, some (4 / 3), some 4] := by
  constructor
  · decide
  · decide

/-! ## C7: degenerate fields stay missing -/

theorem globalFillFn_none (fld : NumField) (r : Record) :
    globalFillFn fld none r = r := by
  unfold globalFillFn
  cases getF fld r <;> rfl

theorem fillField_of_all_none {fld : NumField} {df : List Record}
    (h : ∀ r ∈ df, getF fld r = none) : fillField fld df = df := by
  have hcm : ∀ c, cityMean fld df c = none := by
    intro c
    unfold cityMean
    have he : (df.filter fun r => r.city == c).filterMap (getF fld) = [] := by
      apply List.filterMap_eq_nil_iff.mpr
      intro r hr
      exact h r (List.mem_filter.mp hr).1
    rw [he]
    rfl
  have hfn : ∀ r ∈ df, cityFillFn fld df r = r := by
    intro r hr
    unfold cityFillFn
    simp only [h r hr, hcm r.city]
  have hcity : cityPass fld df = df := by
    unfold cityPass
    calc df.map (cityFillFn fld df) = df.map id := List.map_congr_left hfn
      _ = df := List.map_id df
  unfold fillField globalPass
  rw [hcity, List.filterMap_eq_nil_iff.mpr h]
  calc df.map (globalFillFn fld (meanOpt [])) = df.map id :=
        List.map_congr_left fun r _ => globalFillFn_none fld r
    _ = df := List.map_id df

theorem fillField_none_preserved {fld fld' : NumField} {df : List Record}
    (h : ∀ r ∈ df, getF fld r = none) (hne : fld ≠ fld') :
    ∀ r ∈ fillField fld' df, getF fld r = none := by
  intro r hr
  rw [fillField_eq_map] at hr
  obtain ⟨r0, hr0, he⟩ := List.mem_map.mp hr
  rw [← he, (fillLike_fillFieldFn fld' df).get_other hne r0]
  exact h r0 hr0

/-- C7: for any of the three numeric fields, if every Record's value for
that field is missing, `handle_missing_values` leaves that field missing
on all Records — no fabricated value is substituted. -/
theorem C7_degenerate_field (df : List Record) :
    ((∀ r ∈ df, r.temperature_celsius = none) →
      ∀ r ∈ handle_missing_values df, r.temperature_celsius = none) ∧
    ((∀ r ∈ df, r.humidity_percent = none) →
      ∀ r ∈ handle_missing_values df, r.humidity_percent = none) ∧
    ((∀ r ∈ df, r.wind_speed_kph = none) →
      ∀ r ∈ handle_missing_values df, r.wind_speed_kph = none) := by
  refine ⟨fun h => ?_, fun h => ?_, fun h => ?_⟩
  · unfold handle_missing_values
    rw [@fillField_of_all_none .temp df h]
    have h1 := @fillField_none_preserved .temp .hum df h (by decide)
    exact @fillField_none_preserved .temp .wind _ h1 (by decide)
  · unfold handle_missing_values
    have h1 := @fillField_none_preserved .hum .temp df h (by decide)
    rw [@fillField_of_all_none .hum (fillField .temp df) h1]
    exact @fillField_none_preserved .hum .wind _ h1 (by decide)
  · unfold handle_missing_values
    have h1 := @fillField_none_preserved .wind .temp df h (by decide)
    have h2 := @fillField_none_preserved .wind .hum _ h1 (by decide)
    intro r hr
    rw [@fillField_of_all_none .wind
      (fillField .hum (fillField .temp df)) h2] at hr
    exact h2 r hr

/-- Witness for C7 at the all-missing dataset `exDeg`. -/
theorem C7_degenerate_witness :
    ((handle_missing_values exDeg).all fun r =>
      r.temperature_celsius == none) = true ∧
    ((handle_missing_values exDeg).all fun r =>
      r.humidity_percent == none) = true ∧
    ((handle_missing_values exDeg).all fun r =>
      r.wind_speed_kph == none) = true := by
  have h := C7_degenerate_field exDeg
  refine ⟨List.all_eq_true.mpr fun r hr => ?_,
    List.all_eq_true.mpr fun r hr => ?_,
    List.all_eq_true.mpr fun r hr => ?_⟩
  · rw [h.1 (by decide) r hr]; rfl
  · rw [h.2.1 (by decide) r hr]; rfl
  · rw [h.2.2 (by decide) r hr]; rfl

/-! ## C8: the Fahrenheit column -/

/-- C8: for every Record, `add_fahrenheit_column` sets
`temperature_fahrenheit` to `temperature_celsius * 9/5 + 32` when the
Celsius value is present, and leaves it missing when the Celsius value is
missing (the `Option.map` covers both cases). -/
theorem C8_fahrenheit (df : List Record) (i : ℕ) (r : Record)
    (h : df[i]? = some r) :
    ((add_fahrenheit_column df)[i]?).map (·.temperature_fahrenheit) =
      some (r.temperature_celsius.map fun c => c * 9 / 5 + 32) := by
  unfold add_fahrenheit_column
  rw [List.getElem?_map, h]
  rfl

/-- Witness for C8: `0 ↦ 32`, `100 ↦ 212`, `missing ↦ missing`. -/
theorem C8_fahrenheit_witness :
    ((add_fahrenheit_column exFahr)[0]?).map (·.temperature_fahrenheit) =
      some (some 32) ∧
    ((add_fahrenheit_column exFahr)[1]?).map (·.temperature_fahrenheit) =
      some (some 212) ∧
    ((add_fahrenheit_column exFahr)[2]?).map (·.temperature_fahrenheit) =
      some none := by
  refine ⟨?_, ?_, ?_⟩
  · exact (C8_fahrenheit exFahr 0 rF0 (by decide)).trans (by decide)
  · exact (C8_fahrenheit exFahr 1 rF100 (by decide)).trans (by decide)
  · exact (C8_fahrenheit exFahr 2 rFN (by decide)).trans (by decide)

/-! ## C10: the frame conditions of `handle_missing_values` -/

/-- C10: `handle_missing_values` preserves the number and order of
Records, never changes `city`, `date` or `weather_condition`, and never
changes an originally present numeric value. -/
theorem C10_frame (df : List Record) :
    (handle_missing_values df).length = df.length ∧
    ∀ (i : ℕ) (r r' : Record), df[i]? = some r →
      (handle_missing_values df)[i]? = some r' →
      r'.city = r.city ∧ r'.date = r.date ∧
      r'.weather_condition = r.weather_condition ∧
      (∀ q, r.temperature_celsius = some q →
        r'.temperature_celsius = some q) ∧
      (∀ q, r.humidity_percent = some q → r'.humidity_percent = some q) ∧
      (∀ q, r.wind_speed_kph = some q → r'.wind_speed_kph = some q) := by
  constructor
  · unfold handle_missing_values
    rw [fillField_eq_map, fillField_eq_map, fillField_eq_map,
      List.length_map, List.length_map, List.length_map]
  · intro i r r' h h'
    unfold handle_missing_values at h'
    rw [fillField_eq_map, fillField_eq_map, fillField_eq_map] at h'
    simp only [List.getElem?_map, h, Option.map_some'] at h'
    obtain rfl := (Option.some.inj h').symm
    set f1 := fillFieldFn .temp df with hf1
    have t1 := tame_fillFieldFn .temp df
    have t2 := tame_fillFieldFn .hum (df.map (fillFieldFn .temp df))
    have t3 := tame_fillFieldFn .wind
      ((df.map (fillFieldFn .temp df)).map
        (fillFieldFn .hum (df.map (fillFieldFn .temp df))))
    have tall := (t1.comp t2).comp t3
    obtain ⟨hc, hd, hw⟩ := tall.1 r
    refine ⟨hc, hd, hw, fun q hq => ?_, fun q hq => ?_, fun q hq => ?_⟩
    · exact tall.2 .temp r q hq
    · exact tall.2 .hum r q hq
    · exact tall.2 .wind r q hq

/-- Witness for C10 at `exFrame`: record 0's present values and
non-numeric fields survive while its missing humidity is filled. -/
theorem C10_frame_witness :
    (handle_missing_values exFrame).length = exFrame.length ∧
    exFrameOut0.city = exFrame0.city ∧
    exFrameOut0.date = exFrame0.date ∧
    exFrameOut0.weather_condition = exFrame0.weather_condition ∧
    exFrameOut0.temperature_celsius = some 7 ∧
    exFrameOut0.wind_speed_kph = some 5 := by
  have h := C10_frame exFrame
  have h2 := h.2 0 exFrame0 exFrameOut0 (by decide) (by decide)
  exact ⟨h.1, h2.1, h2.2.1, h2.2.2.1, h2.2.2.2.1 7 (by decide),
    h2.2.2.2.2.2 5 (by decide)⟩

/-! ## C3: what the global fallback mean really is -/

theorem globalFillFn_get_of_none {fld : NumField} {g : Option ℚ} {r : Record}
    (h : getF fld r = none) : getF fld (globalFillFn fld g r) = g := by
  unfold globalFillFn
  cases hg : g with
  | none => simp only [h, hg]
  | some gv => simp only [h, hg]; exact getF_setF_same fld r gv

theorem cityMean_map {fld : NumField} {df : List Record} {f : Record → Record}
    (Hc : ∀ r, (f r).city = r.city)
    (Hf : ∀ r, getF fld (f r) = getF fld r) (c : String) :
    cityMean fld (df.map f) c = cityMean fld df c := by
  unfold cityMean
  rw [List.filter_map, List.filterMap_map,
    List.filter_congr fun r _ => by
      show ((f r).city == c) = (r.city == c)
      rw [Hc r],
    List.filterMap_congr fun r _ => by
      show getF fld (f r) = getF fld r
      exact Hf r]

theorem getF_cityFillFn (fld : NumField) (df : List Record) (r : Record) :
    getF fld (cityFillFn fld df r) =
      match getF fld r, cityMean fld df r.city with
      | some q, _ => some q
      | none, none => none
      | none, some m => if m = 0 then none else some m := by
  unfold cityFillFn
  cases hg : getF fld r with
  | some q => simp only [hg]
  | none =>
    cases hm : cityMean fld df r.city with
    | none => simp only [hg, hm]
    | some m =>
      simp only [hg, hm]
      by_cases hz : m = 0
      · rw [if_pos hz, if_pos hz]; exact hg
      · rw [if_neg hz, if_neg hz, getF_setF_same]

theorem getF_globalFillFn (fld : NumField) (g : Option ℚ) (r : Record) :
    getF fld (globalFillFn fld g r) =
      match getF fld r, g with
      | none, some gv => some gv
      | none, none => none
      | some q, _ => some q := by
  unfold globalFillFn
  cases hg : getF fld r with
  | some q =>
    cases g with
    | none => simp only [hg]
    | some gv => simp only [hg]
  | none =>
    cases g with
    | none => simp only [hg]
    | some gv => simp only [hg]; exact getF_setF_same fld r gv

theorem cityFillFn_map_get {fld : NumField} {df : List Record}
    {f : Record → Record} (Hc : ∀ r, (f r).city = r.city)
    (Hf : ∀ r, getF fld (f r) = getF fld r) (r : Record) :
    getF fld (cityFillFn fld (df.map f) (f r)) =
      getF fld (cityFillFn fld df r) := by
  rw [getF_cityFillFn, getF_cityFillFn, Hf r, Hc r,
    cityMean_map Hc Hf r.city]

theorem cityPass_filterMap_map {fld : NumField} {df : List Record}
    {f : Record → Record} (Hc : ∀ r, (f r).city = r.city)
    (Hf : ∀ r, getF fld (f r) = getF fld r) :
    (cityPass fld (df.map f)).filterMap (getF fld) =
      (cityPass fld df).filterMap (getF fld) := by
  unfold cityPass
  rw [List.map_map, List.filterMap_map, List.filterMap_map]
  exact List.filterMap_congr fun r _ => cityFillFn_map_get Hc Hf r

theorem fillFieldFn_map_get {fld : NumField} {df : List Record}
    {f : Record → Record} (Hc : ∀ r, (f r).city = r.city)
    (Hf : ∀ r, getF fld (f r) = getF fld r) (r : Record) :
    getF fld (fillFieldFn fld (df.map f) (f r)) =
      getF fld (fillFieldFn fld df r) := by
  unfold fillFieldFn
  rw [getF_globalFillFn, getF_globalFillFn,
    cityPass_filterMap_map Hc Hf, cityFillFn_map_get Hc Hf r]

/-- C3 amended: for each imputed field, the global fallback mean that the
code substitutes equals the arithmetic mean of that field's values *after*
its own city-level substitution (city-substituted values do influence it);
values imputed for the other fields still have no effect on it. -/
theorem C3_amended_global_mean (fld : NumField) (df : List Record)
    (i : ℕ) (r : Record) (h : (cityPass fld df)[i]? = some r)
    (hmiss : getF fld r = none) :
    ((handle_missing_values df)[i]?).map (getF fld) =
      some (meanOpt ((cityPass fld df).filterMap (getF fld))) := by
  unfold cityPass at h
  rw [List.getElem?_map] at h
  cases hdf : df[i]? with
  | none => rw [hdf] at h; exact absurd h (by simp)
  | some r0 =>
    rw [hdf, Option.map_some'] at h
    obtain rfl := (Option.some.inj h).symm
    unfold handle_missing_values
    rw [fillField_eq_map, fillField_eq_map, fillField_eq_map,
      List.getElem?_map, List.getElem?_map, List.getElem?_map, hdf,
      Option.map_some', Option.map_some', Option.map_some',
      Option.map_some']
    congr 1
    cases fld with
    | temp =>
      rw [(fillLike_fillFieldFn .wind _).get_other (by decide) _,
        (fillLike_fillFieldFn .hum _).get_other (by decide) _]
      exact globalFillFn_get_of_none hmiss
    | hum =>
      rw [(fillLike_fillFieldFn .wind _).get_other (by decide) _]
      have Hc : ∀ s, (fillFieldFn .temp df s).city = s.city :=
        (fillLike_fillFieldFn .temp df).city
      have Hf : ∀ s, getF .hum (fillFieldFn .temp df s) = getF .hum s :=
        (fillLike_fillFieldFn .temp df).get_other (by decide)
      exact (fillFieldFn_map_get Hc Hf r0).trans
        (globalFillFn_get_of_none hmiss)
    | wind =>
      rw [List.map_map]
      have Hc : ∀ s, (fillFieldFn .hum (df.map (fillFieldFn .temp df))
          (fillFieldFn .temp df s)).city = s.city := fun s =>
        ((fillLike_fillFieldFn .hum _).city _).trans
          ((fillLike_fillFieldFn .temp df).city s)
      have Hf : ∀ s, getF .wind (fillFieldFn .hum
          (df.map (fillFieldFn .temp df)) (fillFieldFn .temp df s)) =
          getF .wind s := fun s =>
        ((fillLike_fillFieldFn .hum _).get_other (by decide) _).trans
          ((fillLike_fillFieldFn .temp df).get_other (by decide) s)
      exact (fillFieldFn_map_get Hc Hf r0).trans
        (globalFillFn_get_of_none hmiss)

/-- C3 counterexample: in `exGlobal` the originally-present temperatures
are `[10, 20]` with mean `15`, but city C's missing temperature receives
`40/3`, the mean of the column after the city-level fill `[10, 10, 20]`;
the global fallback is not the mean of originally-present values. -/
theorem C3_counterexample :
    (handle_missing_values exGlobal).map (·.temperature_celsius) =
      [some 10, some 10, some 20, some (40 / 3)] ∧
    meanOpt (exGlobal.filterMap (·.temperature_celsius)) = some 15 ∧
    (40 / 3 : ℚ) ≠ 15 := by
  refine ⟨by decide, by decide, by decide⟩

/-- Witness for C3 at `exGlobal`, field `temperature_celsius`, index 3. -/
theorem C3_amended_witness :
    ((handle_missing_values exGlobal)[3]?).map (getF .temp) =
      some (meanOpt ((cityPass .temp exGlobal).filterMap (getF .temp))) ∧
    meanOpt ((cityPass .temp exGlobal).filterMap (getF .temp)) =
      some (40 / 3) := by
  constructor
  · exact C3_amended_global_mean .temp exGlobal 3 rGlobal3 (by decide)
      (by decide)
  · decide

/-! ## C6: weather-condition normalization -/

theorem char_toNat_inj {a b : Char} (h : a.toNat = b.toNat) : a = b :=
  Char.eq_of_val_eq (UInt32.ext h)

theorem char_toNat_ofNat {n : ℕ} (h : n.isValidChar) :
    (Char.ofNat n).toNat = n := by
  rw [Char.ofNat, dif_pos h]
  rfl

theorem toNat_toLower (c : Char) :
    c.toLower.toNat =
      if c.toNat ≥ 65 ∧ c.toNat ≤ 90 then c.toNat + 32 else c.toNat := by
  simp only [Char.toLower]
  by_cases h : c.toNat ≥ 65 ∧ c.toNat ≤ 90
  · rw [if_pos h, if_pos h]
    exact char_toNat_ofNat (Or.inl (by omega))
  · rw [if_neg h, if_neg h]

theorem toNat_toUpper (c : Char) :
    c.toUpper.toNat =
      if c.toNat ≥ 97 ∧ c.toNat ≤ 122 then c.toNat - 32 else c.toNat := by
  simp only [Char.toUpper]
  by_cases h : c.toNat ≥ 97 ∧ c.toNat ≤ 122
  · rw [if_pos h, if_pos h]
    exact char_toNat_ofNat (Or.inl (by omega))
  · rw [if_neg h, if_neg h]

theorem toLower_toLower (c : Char) : c.toLower.toLower = c.toLower := by
  apply char_toNat_inj
  simp only [toNat_toLower]
  split_ifs <;> omega

theorem toLower_toUpper_toLower (c : Char) :
    c.toLower.toUpper.toLower = c.toLower := by
  apply char_toNat_inj
  simp only [toNat_toLower, toNat_toUpper]
  split_ifs <;> omega

theorem map_toLower_toLower (l : List Char) :
    (l.map Char.toLower).map Char.toLower = l.map Char.toLower := by
  rw [List.map_map]
  exact List.map_congr_left fun x _ => toLower_toLower x

/-- `capitalize ∘ lower` is idempotent, so surviving conditions are fixed
points of the normalization. -/
theorem pyNormalize_idem (s : String) :
    pyCapitalize (pyLower (pyCapitalize (pyLower s))) =
      pyCapitalize (pyLower s) := by
  cases hs : s.data with
  | nil =>
    unfold pyLower
    rw [hs]
    rfl
  | cons c cs =>
    unfold pyLower pyCapitalize
    rw [hs]
    simp only [List.map_cons, List.map_map]
    congr 1
    congr 1
    · exact congrArg Char.toUpper (toLower_toUpper_toLower c)
    · exact List.map_congr_left fun x _ => by
        show Char.toLower (Char.toLower (Char.toLower (Char.toLower x))) =
          Char.toLower (Char.toLower x)
        rw [toLower_toLower, toLower_toLower]

/-- C6 amended: every Record surviving `clean_weather_conditions` has a
present `weather_condition` that is a fixed point of the capitalize
normalization (first character uppercased, rest lowercased) and is never
`"Unknown"`, `"Null"` or `"NULL"`; the empty string, however, survives
(see the counterexample). -/
theorem C6_amended_conditions (df : List Record) (r : Record)
    (h : r ∈ clean_weather_conditions df) :
    r.weather_condition.map (fun t => pyCapitalize (pyLower t)) =
      r.weather_condition ∧
    r.weather_condition ≠ none ∧
    r.weather_condition ≠ some "Unknown" ∧
    r.weather_condition ≠ some "Null" ∧
    r.weather_condition ≠ some "NULL" := by
  unfold clean_weather_conditions at h
  obtain ⟨hmem, hf⟩ := List.mem_filter.mp h
  obtain ⟨r0, _, he⟩ := List.mem_map.mp hmem
  obtain rfl := he.symm
  simp only [Bool.not_eq_true', Bool.or_eq_false_iff, beq_eq_false_iff_ne,
    ne_eq] at hf
  by_cases hn :
      (r0.weather_condition.map fun s => pyCapitalize (pyLower s)) =
        some "Null" ∨
      (r0.weather_condition.map fun s => pyCapitalize (pyLower s)) =
        some "NULL"
  · exfalso
    have : normalizeCond r0.weather_condition = none := by
      unfold normalizeCond
      rw [if_pos hn]
    exact hf.2 this
  · have hwc : normalizeCond r0.weather_condition =
        r0.weather_condition.map fun s => pyCapitalize (pyLower s) := by
      unfold normalizeCond
      rw [if_neg hn]
    push_neg at hn
    refine ⟨?_, hf.2, hf.1, by rw [hwc]; exact hn.1, by rw [hwc]; exact hn.2⟩
    show (normalizeCond r0.weather_condition).map
        (fun t => pyCapitalize (pyLower t)) =
      normalizeCond r0.weather_condition
    rw [hwc]
    cases hxc : r0.weather_condition with
    | none => rfl
    | some s =>
      simp only [Option.map_some']
      rw [pyNormalize_idem s]

/-- C6 counterexample: a Record whose `weather_condition` is the empty
string survives `clean_weather_conditions` with the empty string intact,
contradicting the claim that the field is never empty. -/
theorem C6_empty_survives :
    (clean_weather_conditions [exEmptyCond]).map (·.weather_condition) =
      [some ""] := by
  decide

/-- Witness for C6 at `exCap` (condition `"sUNNY"`, normalized to
`"Sunny"`). -/
theorem C6_amended_witness :
    exCapOut.weather_condition.map (fun t => pyCapitalize (pyLower t)) =
      exCapOut.weather_condition ∧
    exCapOut.weather_condition ≠ none ∧
    exCapOut.weather_condition ≠ some "Unknown" ∧
    exCapOut.weather_condition ≠ some "Null" ∧
    exCapOut.weather_condition ≠ some "NULL" :=
  C6_amended_conditions [exCap] exCapOut (by decide)

/-! ## C9: the top-5 report -/

/-- C9: the report pairs each city with the rounded mean of its
(post-pipeline) `temperature_celsius` values, orders the cities by this
mean in descending order (`repOrd` puts larger means first and undefined
means last), and returns the first 5 (all cities when fewer than 5 are
distinct); on the spec's example city means
`{A: 30, B: 25, C: 28, D: 10, E: 5, F: 40}` the result is exactly
`[(F,40), (A,30), (C,28), (B,25), (D,10)]`. -/
theorem C9_top5_report (df : List Record) :
    (generate_city_temperature_report df).length =
      min 5 (cityMeanPairs df).length ∧
    List.Sorted repOrd (generate_city_temperature_report df) ∧
    (∀ p ∈ generate_city_temperature_report df, p ∈ cityMeanPairs df) ∧
    generate_city_temperature_report exTop =
      [("F", some 40), ("A", some 30), ("C", some 28), ("B", some 25),
       ("D", some 10)] := by
  refine ⟨?_, ?_, fun p hp => ?_, by decide⟩
  · unfold generate_city_temperature_report
    rw [List.length_take,
      (List.perm_insertionSort repOrd (cityMeanPairs df)).length_eq]
  · exact List.Pairwise.sublist (List.take_sublist 5 _)
      (List.sorted_insertionSort repOrd (cityMeanPairs df))
  · exact (List.perm_insertionSort repOrd (cityMeanPairs df)).subset
      (List.take_subset 5 _ hp)

/-- Witness for C9: the pair membership clause instantiated at `exTop`. -/
theorem C9_top5_witness :
    (generate_city_temperature_report exTop).length =
      min 5 (cityMeanPairs exTop).length ∧
    ("F", (some 40 : Option ℚ)) ∈ cityMeanPairs exTop := by
  refine ⟨(C9_top5_report exTop).1, ?_⟩
  exact (C9_top5_report exTop).2.2.1 ("F", some 40) (by decide)
